import Mathlib

/-!
Verification development for the multi-channel song-request chat bot.

The definitions below are a shallow embedding of the bot's core:
the playlist client (`Google.ensurePlaylist`, `Google.skipFirst`,
`Google.searchBestMatch` with the string-similarity library's
`compareTwoStrings`), the URL resolver (`extractYouTubeVideoId`),
the per-tenant session cache (`getGoogleForUser`), the chat command
handler (`onMessage`), and the periodic channel-roster reconciler
(`reconcileTick`).  Remote endpoints are modelled by explicit state or
oracle parameters; the calls a function makes are returned as explicit
effect lists so that claims about which remote calls happen can be
stated directly.
-/

/-- The JavaScript whitespace class stripped by the similarity scorer. -/
def jsWhitespace (c : Char) : Bool :=
  c = ' ' || c = '\t' || c = '\n' || c = '\r' || c = '\x0b' || c = '\x0c' ||
  c = '\u00a0' || c = '\u1680' || ('\u2000' ≤ c && c ≤ '\u200a') ||
  c = '\u2028' || c = '\u2029' || c = '\u202f' || c = '\u205f' ||
  c = '\u3000' || c = '\ufeff'

/-- JavaScript `toLowerCase()`, mapped character-wise. -/
def jsToLower (s : String) : String := String.mk (s.data.map Char.toLower)

/-- JavaScript `trim()`: strip leading and trailing whitespace and line
terminators. -/
def jsTrim (s : String) : String :=
  String.mk (((s.data.dropWhile jsWhitespace).reverse.dropWhile jsWhitespace).reverse)

namespace Google

/-- A playlist as reported by the remote playlists.list pages: its id and the
snippet title (the title is optional in the wire format; ids are modelled as
always present since the platform assigns one to every playlist). -/
structure Playlist where
  id : String
  title : Option String
deriving DecidableEq, Repr

/-- State of the tenant's remote account: the account's playlists in listing
order (the pagination of playlists.list, flattened), plus a counter from which
fresh playlist ids are drawn on creation. -/
structure PlaylistStore where
  playlists : List Playlist
  nextId : Nat
deriving DecidableEq, Repr

/-- A playlist item as reported by playlistItems.list, carrying the
playlist-item id that delete calls address.  The id field is a string; the
source's truthiness guard also rejects an empty id, which is kept here. -/
structure PlaylistItem where
  id : String
deriving DecidableEq, Repr

/-- `Google.skipFirst`: list the first entry of the playlist; when there is
none (or its id is not truthy) report `false` and issue no delete call;
otherwise delete exactly that entry by its playlist-item id and report `true`.
Returns the result together with the ids passed to delete calls. -/
def skipFirst (items : List PlaylistItem) : Bool × List String :=
  match items.head? with
  | none => (false, [])
  | some first => if first.id == "" then (false, []) else (true, [first.id])

/-- The title test from `ensurePlaylist`: a case-insensitive,
whitespace-trimmed exact match of the snippet title against the wanted name. -/
def titleMatches (name : String) (pl : Playlist) : Bool :=
  match pl.title with
  | some t => jsToLower (jsTrim t) == jsToLower (jsTrim name)
  | none => false

/-- Fresh playlist id assigned by the remote system on creation. -/
def freshId (n : Nat) : String := "PL" ++ toString n

/-- `Google.ensurePlaylist`: page through the account's existing playlists
looking for a trimmed, lowercased exact title match, and only when no page
contains a match create a new unlisted playlist carrying the wanted name as
its title.  Returns the playlist id, the store after the call, and whether a
creation call was issued. -/
def ensurePlaylist (st : PlaylistStore) (name : String) :
    String × PlaylistStore × Bool :=
  match st.playlists.find? (titleMatches name) with
  | some pl => (pl.id, st, false)
  | none =>
      let newId := freshId st.nextId
      (newId, ⟨st.playlists ++ [⟨newId, some name⟩], st.nextId + 1⟩, true)

end Google

/-- `[a-zA-Z0-9_-]`, the character class of a video id token. -/
def idChar (c : Char) : Bool :=
  c.isAlpha || c.isDigit || c = '_' || c = '-'

/-- Take exactly `n` id characters from the front; fail when fewer are
available.  Returns the grabbed characters and the remainder. -/
def grabN : Nat → List Char → Option (List Char × List Char)
  | 0, cs => some ([], cs)
  | _ + 1, [] => none
  | n + 1, c :: cs =>
      if idChar c then (grabN n cs).map (fun p => (c :: p.1, p.2)) else none

/-- Match a literal (case-insensitively, for the regexes' `i` flag) at the
front of the input, returning the remainder. -/
def litAt : List Char → List Char → Option (List Char)
  | [], cs => some cs
  | _ :: _, [] => none
  | l :: ls, c :: cs => if c.toLower = l.toLower then litAt ls cs else none

/-- Line terminators, which the regex `.` does not match. -/
def lineTerm (c : Char) : Bool :=
  c = '\n' || c = '\r' || c = '\u2028' || c = '\u2029'

/-- Suffixes of the input that start right after a `&` reachable by `.*`
(no line terminator may stand before the `&`), in left-to-right order. -/
def ampSuffixes : List Char → List (List Char)
  | [] => []
  | c :: rest =>
      if lineTerm c then []
      else if c = '&' then rest :: ampSuffixes rest
      else ampSuffixes rest

/-- Match `v=` followed by an 11-character id token (the capture group). -/
def vEquals (cs : List Char) : Option String :=
  match litAt ['v', '='] cs with
  | none => none
  | some rest => (grabN 11 rest).map (fun p => String.mk p.1)

/-- Match `(?:.*&)?v=([a-zA-Z0-9_-]{11})`: the optional `.*&` is greedy, so
the rightmost workable `&` is preferred, and only if no `&` works is a direct
`v=` accepted. -/
def queryMatch (cs : List Char) : Option String :=
  match (ampSuffixes cs).reverse.findSome? vEquals with
  | some r => some r
  | none => vEquals cs

/-- Try a list of alternative literal prefixes in preference order (the
backtracking order of an optional regex group), continuing with `k` on the
remainder after the first prefix whose continuation succeeds. -/
def tryPrefixes (alts : List (List Char)) (k : List Char → Option String)
    (cs : List Char) : Option String :=
  alts.findSome? (fun a => (litAt a cs).bind k)

/-- One attempt of `YT_WATCH_RE` at a fixed start position:
`(?:https?:\/\/)?(?:www\.)?youtube\.com\/watch\?(?:.*&)?v=([a-zA-Z0-9_-]{11})`. -/
def watchAt (cs : List Char) : Option String :=
  tryPrefixes ["https://".data, "http://".data, []]
    (tryPrefixes ["www.".data, []]
      (fun cs2 => (litAt "youtube.com/watch?".data cs2).bind queryMatch)) cs

/-- The tail of `YT_SHORT_RE` after `youtu.be/`: an 11-character id that must
be followed by `?` or the end of the input. -/
def shortTail (rest : List Char) : Option String :=
  (grabN 11 rest).bind (fun p =>
    match p.2 with
    | [] => some (String.mk p.1)
    | c :: _ => if c = '?' then some (String.mk p.1) else none)

/-- One attempt of `YT_SHORT_RE` at a fixed start position:
`(?:https?:\/\/)?(?:www\.)?youtu\.be\/([a-zA-Z0-9_-]{11})(?:\?|$)`. -/
def shortAt (cs : List Char) : Option String :=
  tryPrefixes ["https://".data, "http://".data, []]
    (tryPrefixes ["www.".data, []]
      (fun cs2 => (litAt "youtu.be/".data cs2).bind shortTail)) cs

/-- One attempt of `YT_MUSIC_RE` at a fixed start position:
`(?:https?:\/\/)?music\.youtube\.com\/watch\?(?:.*&)?v=([a-zA-Z0-9_-]{11})`. -/
def musicAt (cs : List Char) : Option String :=
  tryPrefixes ["https://".data, "http://".data, []]
    (fun cs2 => (litAt "music.youtube.com/watch?".data cs2).bind queryMatch) cs

/-- Leftmost-match scan: try the single-position matcher at every start
position from the left, as `String.prototype.match` does. -/
def scanFor (f : List Char → Option String) : List Char → Option String
  | [] => f []
  | c :: t =>
      match f (c :: t) with
      | some r => some r
      | none => scanFor f t

/-- `text.match(re)?.[1]` for one of the three patterns. -/
def matchGroup (f : List Char → Option String) (text : String) : Option String :=
  scanFor f text.data

/-- JavaScript `||` on an optional string result: an absent or empty string
falls through to the alternative. -/
def jsOrStr (a : Option String) (b : Option String) : Option String :=
  match a with
  | some s => if s == "" then b else some s
  | none => b

/-- `extractYouTubeVideoId`: try the canonical watch URL, then the youtu.be
short link, then the music-subdomain watch URL, returning the first captured
11-character id, or none when no pattern matches anywhere in the text. -/
def extractYouTubeVideoId (text : String) : Option String :=
  jsOrStr (matchGroup watchAt text)
    (jsOrStr (matchGroup shortAt text)
      (jsOrStr (matchGroup musicAt text) none))

/-- The whitespace-removal step of `compareTwoStrings`. -/
def stripSpaces (s : String) : List Char :=
  s.data.filter (fun c => !jsWhitespace c)

/-- Adjacent character bigrams of a string. -/
def bigrams : List Char → List (List Char)
  | [] => []
  | [_] => []
  | a :: b :: rest => [a, b] :: bigrams (b :: rest)

/-- The bigram-intersection loop of `compareTwoStrings`: walk the second
string's bigrams in order, and for each one that is still available in the
first string's bigram multiset, consume one occurrence and count it. -/
def interSize : List (List Char) → List (List Char) → Nat
  | _, [] => 0
  | avail, b :: rest =>
      if avail.contains b then 1 + interSize (avail.erase b) rest
      else interSize avail rest

/-- `compareTwoStrings` from the string-similarity library: the Dice
coefficient over character bigrams after whitespace removal, with the early
returns for identical strings and for strings shorter than two characters.
Scores are modelled exactly in ℚ. -/
def compareTwoStrings (first second : String) : ℚ :=
  let f := stripSpaces first
  let s := stripSpaces second
  if f = s then 1
  else if f.length < 2 ∨ s.length < 2 then 0
  else (2 * interSize (bigrams f) (bigrams s) : ℚ) /
    ((f.length + s.length - 2 : ℕ) : ℚ)

/-- The artist field shapes seen in remote search results: a bare string, or
an object carrying an optional name field. -/
inductive ArtistShape where
  | str (s : String)
  | obj (name : Option String)
deriving DecidableEq, Repr

/-- A remote catalog search result, with the loosely-typed fields the code
probes: an optional type tag, optional title and name, the artist data in
either the plural-array or the singular field, the video id, and an optional
duration. -/
structure SearchResult where
  type : Option String
  title : Option String
  name : Option String
  artists : Option (List ArtistShape)
  artist : Option ArtistShape
  videoId : String
  duration : Option String
deriving DecidableEq, Repr

/-- The resolver output (`SongPick`). -/
structure SongPick where
  title : String
  artists : List String
  videoId : String
  duration : Option String
deriving DecidableEq, Repr

/-- JavaScript `a || d` for an optional string `a`: an absent or empty string
falls back to the default. -/
def jsOrD (a : Option String) (d : String) : String :=
  match a with
  | some s => if s == "" then d else s
  | none => d

/-- `a.name || a` for a haystack artist entry: an object without a truthy
name stringifies as `[object Object]` when joined. -/
def haystackArtist : ArtistShape → String
  | .str s => s
  | .obj (some n) => if n == "" then "[object Object]" else n
  | .obj none => "[object Object]"

/-- Insert into an already ranked list, placing the new element before the
first old element it may precede; on comparator ties the new element (which
stood earlier in the input) stays first. -/
def insertRanked (le : α → α → Bool) (x : α) : List α → List α
  | [] => [x]
  | y :: ys => if le x y then x :: y :: ys else y :: insertRanked le x ys

/-- A stable sort, modelling the JS engine's `Array.prototype.sort` with a
comparator: the specification of that sort is exactly that the result is
sorted under the comparator and stable. -/
def stableSort (le : α → α → Bool) : List α → List α
  | [] => []
  | x :: xs => insertRanked le x (stableSort le xs)

namespace Google

/-- The song filter of `searchBestMatch`:
`(r.type || "").toLowerCase() === "song"`. -/
def isSong (r : SearchResult) : Bool :=
  jsToLower (r.type.getD "") == "song"

/-- The scoring haystack: title (falling back through `??` to name and the
empty string) followed by the space-joined artist names, lower-cased. -/
def haystack (s : SearchResult) : String :=
  let artistNames := String.intercalate " " ((s.artists.getD []).map haystackArtist)
  jsToLower ((s.title.getD (s.name.getD "")) ++ " " ++ artistNames)

/-- The similarity score of a candidate against the query. -/
def scoreOf (query : String) (s : SearchResult) : ℚ :=
  compareTwoStrings (jsToLower query) (haystack s)

/-- The sort relation of `ranked`: descending score (the comparator
`b.score - a.score` orders greater scores first). -/
def rankLE (a b : SearchResult × ℚ) : Bool := b.2 ≤ a.2

/-- The artist-extraction case ladder of `searchBestMatch`, before the final
empty-list fallback: an artists array is mapped (strings kept, objects
replaced by their name or the placeholder) and cleared of empty strings; a
singular artist object contributes its name when truthy; a singular artist
string contributes itself when non-empty. -/
def rawArtists (top : SearchResult) : List String :=
  match top.artists with
  | some l =>
      (l.map (fun a =>
        match a with
        | .str s => s
        | .obj name => jsOrD name "Unknown Artist")).filter (fun s => s ≠ "")
  | none =>
      match top.artist with
      | some (.obj (some n)) => if n == "" then [] else [n]
      | some (.obj none) => []
      | some (.str s) => if s == "" then [] else [s]
      | none => []

/-- The extracted artist list, with the `Unknown Artist` fallback when the
case ladder produced nothing. -/
def extractArtists (top : SearchResult) : List String :=
  let a := rawArtists top
  if a.isEmpty then ["Unknown Artist"] else a

/-- Build the returned `SongPick` from the top-ranked candidate. -/
def mkPick (top : SearchResult) : SongPick :=
  { title := jsOrD top.title (jsOrD top.name "Unknown Song")
    artists := extractArtists top
    videoId := top.videoId
    duration := top.duration }

/-- `Google.searchBestMatch` on an already-fetched search result list: filter
to song-typed results (null when none remain), rank them by descending
similarity of the query against the title-plus-artists haystack with a stable
sort, and build the pick from the top-ranked candidate. -/
def searchBestMatch (results : List SearchResult) (query : String) :
    Option SongPick :=
  let songs := results.filter isSong
  if songs.isEmpty then none
  else
    let ranked := stableSort rankLE (songs.map (fun s => (s, scoreOf query s)))
    match ranked.head? with
    | none => none
    | some top => some (mkPick top.1)

end Google

/-- The spec example's song-typed search result. -/
def helloSong : SearchResult :=
  { type := some "song", title := some "Hello", name := none,
    artists := some [.obj (some "Adele")], artist := none,
    videoId := "vid1", duration := none }

/-- The spec example's video-typed search result. -/
def helloVideo : SearchResult :=
  { type := some "video", title := some "Hello (unrelated)", name := none,
    artists := none, artist := none, videoId := "vid2", duration := none }

/-- A search result carrying no artist data in any shape. -/
def noArtistResult : SearchResult :=
  { type := some "song", title := some "Sound", name := none,
    artists := none, artist := none, videoId := "vid3", duration := none }

/-- A tenant row of the roster, as the reconciler reads it. -/
structure TenantUser where
  twitchUserId : String
  twitchUsername : String
deriving DecidableEq, Repr

/-- A remote chat-connection call attempted by the reconciler. -/
inductive ChatEffect where
  | register (userId : String)
  | join (channel : String)
  | part (channel : String)
deriving DecidableEq, Repr

/-- The reconciler's join pass: for each active user whose channel is not in
the joined list, register its chat credential and join its channel inside a
per-user try/catch — a registration or join failure is logged and skips only
that user, and the channel is pushed onto the joined list only after both
calls succeed.  `regOk`/`joinOk` are oracles for whether the remote calls
succeed.  Returns the joined list and the remote calls attempted. -/
def joinPhase (regOk joinOk : String → Bool) :
    List TenantUser → List String → List String × List ChatEffect
  | [], chs => (chs, [])
  | u :: rest, chs =>
      if chs.contains u.twitchUsername then joinPhase regOk joinOk rest chs
      else if regOk u.twitchUserId then
        if joinOk u.twitchUsername then
          let r := joinPhase regOk joinOk rest (chs ++ [u.twitchUsername])
          (r.1, .register u.twitchUserId :: .join u.twitchUsername :: r.2)
        else
          let r := joinPhase regOk joinOk rest chs
          (r.1, .register u.twitchUserId :: .join u.twitchUsername :: r.2)
      else
        let r := joinPhase regOk joinOk rest chs
        (r.1, .register u.twitchUserId :: r.2)

/-- The reconciler's cleanup pass over the joined list, with the iteration
semantics of a `for...of` loop whose array is spliced in place: the iterator
index `k` advances over the mutating list.  A part call is not wrapped in any
try/catch, so a part failure aborts the whole pass (third component `true`);
on success the channel is removed at its first index.  Returns the joined
list, the part calls attempted, and whether the pass aborted. -/
def partPhase (users : List TenantUser) (partOk : String → Bool) :
    Nat → List String → List String × List ChatEffect × Bool
  | k, chs =>
    if h : k < chs.length then
      let ch := chs.get ⟨k, h⟩
      if (users.find? (fun u => u.twitchUsername == ch)).isSome then
        partPhase users partOk (k + 1) chs
      else if partOk ch then
        let chs2 := chs.eraseIdx (chs.indexOf ch)
        let r := partPhase users partOk (k + 1) chs2
        (r.1, .part ch :: r.2.1, r.2.2)
      else
        (chs, [.part ch], true)
    else (chs, [], false)
  termination_by k chs => chs.length - k
  decreasing_by
    · omega
    · have := List.length_eraseIdx_le chs (chs.indexOf (chs.get ⟨k, h⟩))
      omega

/-- One tick of the roster reconciler: load the active users, run the join
pass, then the cleanup pass over the (updated) joined list. -/
def reconcileTick (regOk joinOk partOk : String → Bool)
    (currentUsers : List TenantUser) (channels : List String) :
    List String × List ChatEffect × Bool :=
  let p1 := joinPhase regOk joinOk currentUsers channels
  let p2 := partPhase currentUsers partOk 0 p1.1
  (p2.1, p1.2 ++ p2.2.1, p2.2.2)

/-- A User row of the credential store, as the bot reads it. -/
structure DbUser where
  id : String
  twitchUsername : String
  playlistName : String
  youtubePlaylistId : Option String
  googleRefreshToken : Option String
deriving DecidableEq, Repr

/-- JavaScript truthiness for an optional string: a missing value and the
empty string are falsy. -/
def jsFalsyStr : Option String → Bool
  | none => true
  | some s => s == ""

/-- A constructed Google client, identified by the config it was built
from. -/
structure GoogleInst where
  refreshToken : String
  requestsPlaylistName : String
deriving DecidableEq, Repr

/-- `getGoogleForUser` over an explicit session cache: a cached instance is
returned as is; a missing user row or one without a linked Google refresh
token yields none without caching anything; otherwise a client is
constructed and its one-time warm-up runs — `initFails` tells whether that
warm-up throws, in which case the failure propagates as `Except.error` and
nothing is cached (the cache insert stands after the warm-up in the source).
Returns the outcome together with the cache after the call. -/
def getGoogleForUser (cache : List (String × GoogleInst))
    (db : String → Option DbUser) (initFails : GoogleInst → Bool)
    (userId : String) :
    Except Unit (Option GoogleInst) × List (String × GoogleInst) :=
  match cache.lookup userId with
  | some g => (.ok (some g), cache)
  | none =>
    match db userId with
    | none => (.ok none, cache)
    | some user =>
      if jsFalsyStr user.googleRefreshToken then (.ok none, cache)
      else
        let g : GoogleInst :=
          { refreshToken := user.googleRefreshToken.getD ""
            requestsPlaylistName := user.playlistName }
        if initFails g then (.error (), cache)
        else (.ok (some g), (userId, g) :: cache)

/-- The privilege flags of the message sender. -/
structure ChatUserInfo where
  isMod : Bool
  isBroadcaster : Bool
deriving DecidableEq, Repr

/-- A call made while handling one chat message, in order: the initial
user-row read, replies sent, session-cache lookups, and the remote playlist
or catalog calls. -/
inductive BotEffect where
  | dbFindFirst (channelName : String)
  | say (channel : String) (text : String)
  | sessionLookup (userId : String)
  | searchCall (query : String)
  | ensureCall (name : String)
  | dbUpdatePlaylistId (userId : String) (playlistId : String)
  | addCall (playlistId : String) (videoId : String)
  | nowPlayingCall (playlistId : String)
  | skipCall (playlistId : String)
deriving DecidableEq, Repr

/-- Outcome oracles for the remote calls a message handler can make.
`Except.error` means the underlying call throws (caught by the branch's
try/catch); `session` is the outcome of `getGoogleForUser` (ok none =
feature not connected). -/
structure BotEnv where
  dbUser : Option DbUser
  session : Except Unit (Option Unit)
  searchRes : String → Except Unit (Option SongPick)
  ensureRes : String → Except Unit String
  addRes : String → String → Except Unit Unit
  skipRes : String → Except Unit Bool
  npRes : String → Except Unit (Option (String × String))

/-- JavaScript `slice(n)`. -/
def jsSlice (s : String) (n : Nat) : String := String.mk (s.data.drop n)

/-- JavaScript `startsWith`. -/
def jsStartsWith (s pat : String) : Bool := pat.data.isPrefixOf s.data

/-- `channel.replace('#', '')`: a string-pattern replace removes only the
first occurrence. -/
def removeFirstHash : List Char → List Char
  | [] => []
  | c :: rest => if c = '#' then rest else c :: removeFirstHash rest

/-- The channel name as the handler derives it from the channel argument. -/
def channelNameOf (channel : String) : String :=
  String.mk (removeFirstHash channel.data)

/-- The generic failure reply of the request branch's catch block. -/
def srCatch (channel : String) : List BotEffect :=
  [.say channel "Sorry, something went wrong with your request!"]

/-- Resolve the tenant's playlist id: use the remembered id when truthy,
otherwise call `ensurePlaylist` and, still under the same falsiness test,
write the discovered id back to the user row.  Returns the calls made and
the id (or the propagated ensure failure). -/
def resolvePlaylist (env : BotEnv) (u : DbUser) :
    List BotEffect × Except Unit String :=
  if jsFalsyStr u.youtubePlaylistId then
    match env.ensureRes u.playlistName with
    | .error e => ([.ensureCall u.playlistName], .error e)
    | .ok pid =>
        ([.ensureCall u.playlistName, .dbUpdatePlaylistId u.id pid], .ok pid)
  else ([], .ok (u.youtubePlaylistId.getD ""))

/-- Append the track and emit the confirmation reply, or the catch reply when
the add call throws. -/
def addStep (env : BotEnv) (channel : String) (pid vid : String)
    (okReply : List BotEffect) : List BotEffect :=
  .addCall pid vid ::
  match env.addRes pid vid with
  | .error _ => srCatch channel
  | .ok _ => okReply

/-- The `!sr` branch, after the command word and one space: empty argument
prompts and stops before any session lookup; otherwise the session is
resolved (null session replies not connected), a direct link bypasses the
search, and a free-text query is searched; either path then resolves the
playlist id, appends, and confirms.  Any thrown step is caught into the
generic failure reply. -/
def srBody (env : BotEnv) (channel : String) (u : DbUser) (query : String) :
    List BotEffect :=
  if query == "" then
    [.say channel "Please provide a song name or YouTube link!"]
  else
    .sessionLookup u.id ::
    match env.session with
    | .error _ => srCatch channel
    | .ok none =>
        [.say channel
          "YouTube Music is not connected. Please visit the dashboard to connect!"]
    | .ok (some _) =>
      match extractYouTubeVideoId query with
      | some videoId =>
          (resolvePlaylist env u).1 ++
          (match (resolvePlaylist env u).2 with
          | .error _ => srCatch channel
          | .ok pid =>
              addStep env channel pid videoId
                [.say channel ("✓ Added to queue: https://youtu.be/" ++ videoId)])
      | none =>
          .searchCall query ::
          match env.searchRes query with
          | .error _ => srCatch channel
          | .ok none => [.say channel ("No results found for \"" ++ query ++ "\"")]
          | .ok (some best) =>
              (resolvePlaylist env u).1 ++
              (match (resolvePlaylist env u).2 with
              | .error _ => srCatch channel
              | .ok pid =>
                  addStep env channel pid best.videoId
                    [.say channel ("✓ Added: " ++ best.title ++ " — " ++
                      String.intercalate ", " best.artists)])

/-- The `!np` branch: resolve the session (a thrown lookup is caught into the
branch's failure reply); a null session or an untruthy remembered playlist id
replies no playlist; otherwise peek the head and reply accordingly. -/
def npBody (env : BotEnv) (channel : String) (u : DbUser) : List BotEffect :=
  .sessionLookup u.id ::
  match env.session with
  | .error _ => [.say channel "Could not fetch currently playing song."]
  | .ok g =>
    if g.isNone || jsFalsyStr u.youtubePlaylistId then
      [.say channel "No playlist found!"]
    else
      .nowPlayingCall (u.youtubePlaylistId.getD "") ::
      match env.npRes (u.youtubePlaylistId.getD "") with
      | .error _ => [.say channel "Could not fetch currently playing song."]
      | .ok none => [.say channel "Nothing is playing right now!"]
      | .ok (some np) =>
          [.say channel ("♪ Now Playing: " ++ np.1 ++ " by " ++ np.2)]

/-- The `!skip` branch: a sender holding neither the moderator nor the
broadcaster flag is ignored before anything else happens (no reply, no
lookup); otherwise mirror the `!np` structure around `skipFirst`. -/
def skipBody (env : BotEnv) (channel : String) (u : DbUser)
    (ui : ChatUserInfo) : List BotEffect :=
  if !ui.isMod && !ui.isBroadcaster then []
  else
    .sessionLookup u.id ::
    match env.session with
    | .error _ => [.say channel "Could not skip song."]
    | .ok g =>
      if g.isNone || jsFalsyStr u.youtubePlaylistId then
        [.say channel "No playlist found!"]
      else
        .skipCall (u.youtubePlaylistId.getD "") ::
        match env.skipRes (u.youtubePlaylistId.getD "") with
        | .error _ => [.say channel "Could not skip song."]
        | .ok true => [.say channel "⏭ Skipped!"]
        | .ok false => [.say channel "Queue is empty!"]

set_option linter.unusedVariables false in
/-- The chat `onMessage` handler as the list of calls it makes, in order: the
user-row read for the channel, then the command branches.  The source checks
the three commands with sequential ifs whose conditions are mutually
exclusive (a line starting with the request word and a space can equal
neither bare command), so first-match dispatch is equivalent. -/
def onMessage (env : BotEnv) (channel user text : String) (ui : ChatUserInfo) :
    List BotEffect :=
  .dbFindFirst (channelNameOf channel) ::
  match env.dbUser with
  | none => []
  | some u =>
    if jsStartsWith (jsToLower text) "!sr " then
      srBody env channel u (jsTrim (jsSlice text 4))
    else if jsToLower text == "!np" then npBody env channel u
    else if jsToLower text == "!skip" then skipBody env channel u ui
    else []

/-- A user row with a linked Google credential and a remembered playlist. -/
def sampleUser : DbUser :=
  ⟨"u1", "chan", "Requests", some "PL1", some "tok"⟩

/-- A user row with a linked Google credential and no remembered playlist. -/
def tokenUser : DbUser :=
  ⟨"u2", "chan2", "Requests", none, some "tok"⟩

/-- An environment with a connected session and benign oracles. -/
def sampleEnv : BotEnv :=
  { dbUser := some sampleUser
    session := .ok (some ())
    searchRes := fun _ => .ok none
    ensureRes := fun _ => .ok "PL1"
    addRes := fun _ _ => .ok ()
    skipRes := fun _ => .ok true
    npRes := fun _ => .ok none }

/-- C1: `findOrCreatePlaylist` (`Google.ensurePlaylist`) is idempotent:
calling it twice in succession with the same name against the same tenant
store returns the same playlist id both times, the second call issues no
creation call, and the second call leaves the store unchanged — the playlist
created (or found) by the first call is found by the second call's
search-before-create scan. -/
theorem Google.ensurePlaylist_idempotent (st : Google.PlaylistStore) (name : String) :
    (Google.ensurePlaylist (Google.ensurePlaylist st name).2.1 name).1 =
      (Google.ensurePlaylist st name).1 ∧
    (Google.ensurePlaylist (Google.ensurePlaylist st name).2.1 name).2.2 = false ∧
    (Google.ensurePlaylist (Google.ensurePlaylist st name).2.1 name).2.1 =
      (Google.ensurePlaylist st name).2.1 := by
  cases h : st.playlists.find? (Google.titleMatches name) with
  | some pl =>
      simp [Google.ensurePlaylist, h]
  | none =>
      simp only [Google.ensurePlaylist, h]
      have hnew : Google.titleMatches name
          ⟨Google.freshId st.nextId, some name⟩ = true := by
        simp [Google.titleMatches]
      simp [List.find?_append, h, List.find?, hnew]

theorem grabN_length (n : Nat) : ∀ (cs l r : List Char),
    grabN n cs = some (l, r) → l.length = n := by
  induction n with
  | zero =>
      intro cs l r h
      simp [grabN] at h
      simp [← h.1]
  | succ n ih =>
      intro cs l r h
      cases cs with
      | nil => simp [grabN] at h
      | cons c cs =>
          simp only [grabN] at h
          by_cases hc : idChar c
          · rw [if_pos hc, Option.map_eq_some'] at h
            obtain ⟨⟨a, b⟩, hg, hpair⟩ := h
            cases hpair
            simp [ih cs a b hg]
          · rw [if_neg hc] at h
            cases h

theorem vEquals_length (cs : List Char) (id : String) :
    vEquals cs = some id → id.length = 11 := by
  intro h
  cases hl : litAt ['v', '='] cs with
  | none => simp [vEquals, hl] at h
  | some rest =>
      simp only [vEquals, hl] at h
      rw [Option.map_eq_some'] at h
      obtain ⟨⟨a, b⟩, hg, hid⟩ := h
      have ha := grabN_length 11 rest a b hg
      cases hid
      simp [String.length, ha]

theorem queryMatch_length (cs : List Char) (id : String) :
    queryMatch cs = some id → id.length = 11 := by
  intro h
  unfold queryMatch at h
  cases hf : (ampSuffixes cs).reverse.findSome? vEquals with
  | some r =>
      rw [hf] at h
      obtain ⟨a, _, hv⟩ := List.exists_of_findSome?_eq_some hf
      cases h
      exact vEquals_length a id hv
  | none =>
      rw [hf] at h
      exact vEquals_length cs id h

theorem tryPrefixes_length (alts : List (List Char)) (k : List Char → Option String)
    (hk : ∀ cs id, k cs = some id → id.length = 11) (cs : List Char) (id : String) :
    tryPrefixes alts k cs = some id → id.length = 11 := by
  intro h
  obtain ⟨a, _, hfa⟩ := List.exists_of_findSome?_eq_some h
  rw [Option.bind_eq_some] at hfa
  obtain ⟨rest, _, hkr⟩ := hfa
  exact hk rest id hkr

theorem shortTail_length (rest : List Char) (id : String) :
    shortTail rest = some id → id.length = 11 := by
  intro h
  unfold shortTail at h
  rw [Option.bind_eq_some] at h
  obtain ⟨⟨a, b⟩, hg, hm⟩ := h
  have ha := grabN_length 11 rest a b hg
  cases b with
  | nil =>
      simp at hm
      simp [← hm, String.length, ha]
  | cons c t =>
      simp at hm
      by_cases hc : c = '?'
      · simp [hc] at hm
        simp [← hm, String.length, ha]
      · simp [hc] at hm

theorem watchAt_length (cs : List Char) (id : String) :
    watchAt cs = some id → id.length = 11 := by
  refine tryPrefixes_length _ _ (fun cs2 id2 h2 => ?_) cs id
  refine tryPrefixes_length _ _ (fun cs3 id3 h3 => ?_) cs2 id2 h2
  rw [Option.bind_eq_some] at h3
  obtain ⟨rest, _, hq⟩ := h3
  exact queryMatch_length rest id3 hq

theorem shortAt_length (cs : List Char) (id : String) :
    shortAt cs = some id → id.length = 11 := by
  refine tryPrefixes_length _ _ (fun cs2 id2 h2 => ?_) cs id
  refine tryPrefixes_length _ _ (fun cs3 id3 h3 => ?_) cs2 id2 h2
  rw [Option.bind_eq_some] at h3
  obtain ⟨rest, _, hq⟩ := h3
  exact shortTail_length rest id3 hq

theorem musicAt_length (cs : List Char) (id : String) :
    musicAt cs = some id → id.length = 11 := by
  refine tryPrefixes_length _ _ (fun cs2 id2 h2 => ?_) cs id
  rw [Option.bind_eq_some] at h2
  obtain ⟨rest, _, hq⟩ := h2
  exact queryMatch_length rest id2 hq

theorem scanFor_length (f : List Char → Option String)
    (hf : ∀ cs id, f cs = some id → id.length = 11) :
    ∀ (cs : List Char) (id : String), scanFor f cs = some id → id.length = 11 := by
  intro cs
  induction cs with
  | nil => intro id h; exact hf [] id h
  | cons c t ih =>
      intro id h
      unfold scanFor at h
      cases hc : f (c :: t) with
      | some r => rw [hc] at h; cases h; exact hf _ id hc
      | none => rw [hc] at h; exact ih id h

theorem beq_empty_eq_false_of_length (id : String) (hlen : id.length = 11) :
    (id == "") = false := by
  rw [beq_eq_false_iff_ne]
  intro he
  rw [he] at hlen
  simp at hlen

theorem jsOrStr_of_len (a b : Option String)
    (ha : ∀ x, a = some x → x.length = 11) :
    jsOrStr a b = a.or b := by
  cases h : a with
  | none => simp [jsOrStr]
  | some s =>
      have hb := beq_empty_eq_false_of_length s (ha s h)
      simp [jsOrStr, hb]

/-- C5: `extractYouTubeVideoId` returns an 11-character video token exactly
when the text contains a platform video URL in one of the three accepted
shapes (canonical watch URL, youtu.be short link, music-subdomain watch URL):
every returned token has length 11, the short link
`https://youtu.be/dQw4w9WgXcQ` yields `dQw4w9WgXcQ`, a bare token with no URL
around it yields none, and a token is returned iff one of the three patterns
matches somewhere in the text. -/
theorem extractYouTubeVideoId_spec :
    (∀ text id, extractYouTubeVideoId text = some id → id.length = 11) ∧
    extractYouTubeVideoId "https://youtu.be/dQw4w9WgXcQ" = some "dQw4w9WgXcQ" ∧
    extractYouTubeVideoId "dQw4w9WgXcQ" = none ∧
    (∀ text, (extractYouTubeVideoId text).isSome ↔
      ((matchGroup watchAt text).isSome ∨ (matchGroup shortAt text).isSome ∨
        (matchGroup musicAt text).isSome)) := by
  have hw : ∀ text id, matchGroup watchAt text = some id → id.length = 11 :=
    fun text id h => scanFor_length watchAt watchAt_length text.data id h
  have hs : ∀ text id, matchGroup shortAt text = some id → id.length = 11 :=
    fun text id h => scanFor_length shortAt shortAt_length text.data id h
  have hm : ∀ text id, matchGroup musicAt text = some id → id.length = 11 :=
    fun text id h => scanFor_length musicAt musicAt_length text.data id h
  have key : ∀ text, extractYouTubeVideoId text =
      ((matchGroup watchAt text).or
        ((matchGroup shortAt text).or (matchGroup musicAt text))) := by
    intro text
    unfold extractYouTubeVideoId
    rw [jsOrStr_of_len _ _ (hm text)]
    rw [jsOrStr_of_len _ _ (hs text), jsOrStr_of_len _ _ (hw text)]
    simp
  refine ⟨?_, by decide, by decide, ?_⟩
  · intro text id h
    rw [key] at h
    rcases Option.or_eq_some.mp h with h1 | ⟨_, h2⟩
    · exact hw text id h1
    rcases Option.or_eq_some.mp h2 with h3 | ⟨_, h4⟩
    · exact hs text id h3
    · exact hm text id h4
  · intro text
    rw [key]
    cases matchGroup watchAt text <;> cases matchGroup shortAt text <;>
      cases matchGroup musicAt text <;> simp [Option.or]

theorem extractYouTubeVideoId_spec_witness :
    ("dQw4w9WgXcQ" : String).length = 11 :=
  extractYouTubeVideoId_spec.1 "https://youtu.be/dQw4w9WgXcQ" "dQw4w9WgXcQ"
    (by decide)

theorem length_insertRanked {α : Type} (le : α → α → Bool) (x : α) (l : List α) :
    (insertRanked le x l).length = l.length + 1 := by
  induction l with
  | nil => rfl
  | cons y ys ih => by_cases h : le x y <;> simp [insertRanked, h, ih]

theorem length_stableSort {α : Type} (le : α → α → Bool) (l : List α) :
    (stableSort le l).length = l.length := by
  induction l with
  | nil => rfl
  | cons x xs ih => simp [stableSort, length_insertRanked, ih]

theorem head_stableSort {α : Type} (le : α → α → Bool)
    (t1 : ∀ a b c, le a b = true → le b c = true → le a c = true)
    (t2 : ∀ a b, le a b = true ∨ le b a = true) :
    ∀ (l : List α) (a : α), (stableSort le l).head? = some a →
      (∃ pre post, l = pre ++ a :: post ∧ ∀ x ∈ pre, le x a = false) ∧
      (∀ x ∈ l, le a x = true) := by
  intro l
  induction l with
  | nil => intro a h; simp [stableSort] at h
  | cons c t ih =>
      intro a h
      simp only [stableSort] at h
      cases hs : stableSort le t with
      | nil =>
          rw [hs] at h
          simp [insertRanked] at h
          have ht : t = [] := by
            have hlen := congrArg List.length hs
            rw [length_stableSort] at hlen
            exact List.length_eq_zero.mp hlen
          subst ht
          subst a
          refine ⟨⟨[], [], rfl, by simp⟩, ?_⟩
          intro x hx
          rw [List.mem_singleton] at hx
          rw [hx]
          rcases t2 c c with hxx | hxx <;> exact hxx
      | cons b s' =>
          rw [hs] at h
          have hbt := ih b (by rw [hs]; rfl)
          simp only [insertRanked] at h
          by_cases hcb : le c b = true
          · rw [if_pos hcb] at h
            simp at h
            subst a
            refine ⟨⟨[], t, rfl, by simp⟩, ?_⟩
            intro x hx
            rcases List.mem_cons.mp hx with hx | hx
            · rw [hx]
              rcases t2 c c with hxx | hxx <;> exact hxx
            · exact t1 c b x hcb (hbt.2 x hx)
          · rw [if_neg hcb] at h
            simp at h
            subst a
            obtain ⟨⟨pre, post, hsplit, hpre⟩, hmax⟩ := hbt
            constructor
            · refine ⟨c :: pre, post, by rw [hsplit]; rfl, ?_⟩
              intro x hx
              rcases List.mem_cons.mp hx with hx | hx
              · rw [hx]
                simp at hcb
                exact hcb
              · exact hpre x hx
            · intro x hx
              rcases List.mem_cons.mp hx with hx | hx
              · rw [hx]
                rcases t2 b c with hax | hax
                · exact hax
                · exact absurd hax hcb
              · exact hmax x hx

theorem rankLE_trans (a b c : SearchResult × ℚ) :
    Google.rankLE a b = true → Google.rankLE b c = true → Google.rankLE a c = true := by
  simp only [Google.rankLE, decide_eq_true_eq]
  intro h1 h2
  exact le_trans h2 h1

theorem rankLE_total (a b : SearchResult × ℚ) :
    Google.rankLE a b = true ∨ Google.rankLE b a = true := by
  simp only [Google.rankLE, decide_eq_true_eq]
  exact le_total b.2 a.2

/-- C4: `searchBestMatch` filters the results to song-typed candidates; when
none remain it returns none, and otherwise it returns the `SongPick` built
from a candidate whose similarity score is maximal among the song candidates
and strictly above every song candidate standing earlier in catalog order
(score ties are broken in favour of the first-seen candidate). -/
theorem Google.searchBestMatch_spec (results : List SearchResult) (query : String) :
    (results.filter Google.isSong = [] → Google.searchBestMatch results query = none) ∧
    (∀ pick, Google.searchBestMatch results query = some pick →
      ∃ pre c post, results.filter Google.isSong = pre ++ c :: post ∧
        pick = Google.mkPick c ∧
        (∀ x ∈ results.filter Google.isSong,
          Google.scoreOf query x ≤ Google.scoreOf query c) ∧
        (∀ x ∈ pre, Google.scoreOf query x < Google.scoreOf query c)) ∧
    (results.filter Google.isSong ≠ [] →
      (Google.searchBestMatch results query).isSome) := by
  refine ⟨?_, ?_, ?_⟩
  · intro hempty
    simp [Google.searchBestMatch, hempty]
  · intro pick h
    simp only [Google.searchBestMatch] at h
    by_cases hempty : (results.filter Google.isSong).isEmpty
    · rw [if_pos hempty] at h
      cases h
    rw [if_neg hempty] at h
    cases hh : (stableSort Google.rankLE
        ((results.filter Google.isSong).map
          (fun s => (s, Google.scoreOf query s)))).head? with
    | none => rw [hh] at h; cases h
    | some top =>
        rw [hh] at h
        have hpick : pick = Google.mkPick top.1 := by
          cases h; rfl
        obtain ⟨⟨pre0, post0, hsplit, hpre⟩, hmax⟩ :=
          head_stableSort Google.rankLE rankLE_trans rankLE_total _ top hh
        rw [List.map_eq_append_iff] at hsplit
        obtain ⟨s1, s2, hsongs, hs1, hs2⟩ := hsplit
        rw [List.map_eq_cons_iff] at hs2
        obtain ⟨c, cs, hs2eq, hfc, hcs⟩ := hs2
        refine ⟨s1, c, cs, by rw [hsongs, hs2eq], ?_, ?_, ?_⟩
        · rw [hpick, ← hfc]
        · intro x hx
          have hmem : (x, Google.scoreOf query x) ∈
              (results.filter Google.isSong).map
                (fun s => (s, Google.scoreOf query s)) :=
            List.mem_map_of_mem _ hx
          have hle := hmax _ hmem
          simp only [Google.rankLE, decide_eq_true_eq] at hle
          have htop2 : top.2 = Google.scoreOf query c := by rw [← hfc]
          rw [htop2] at hle
          exact hle
        · intro x hx
          have hmem : (x, Google.scoreOf query x) ∈ pre0 := by
            rw [← hs1]
            exact List.mem_map_of_mem _ hx
          have hnle := hpre _ hmem
          simp only [Google.rankLE, decide_eq_false_iff_not, decide_eq_true_eq] at hnle
          have htop2 : top.2 = Google.scoreOf query c := by rw [← hfc]
          rw [htop2] at hnle
          exact lt_of_not_le hnle
  · intro hne
    simp only [Google.searchBestMatch]
    have hempty : (results.filter Google.isSong).isEmpty = false := by
      simp [List.isEmpty_iff, hne]
    rw [if_neg (by simp [hempty])]
    cases hh : (stableSort Google.rankLE
        ((results.filter Google.isSong).map
          (fun s => (s, Google.scoreOf query s)))).head? with
    | none =>
        exfalso
        rw [List.head?_eq_none_iff] at hh
        have hlen := congrArg List.length hh
        rw [length_stableSort, List.length_map, List.length_nil] at hlen
        exact hne (List.length_eq_zero.mp hlen)
    | some top => rfl

theorem Google.searchBestMatch_spec_witness :
    ∃ pre c post,
      [helloSong, helloVideo].filter Google.isSong = pre ++ c :: post ∧
      Google.mkPick helloSong = Google.mkPick c ∧
      (∀ x ∈ [helloSong, helloVideo].filter Google.isSong,
        Google.scoreOf "hello adele" x ≤ Google.scoreOf "hello adele" c) ∧
      (∀ x ∈ pre, Google.scoreOf "hello adele" x < Google.scoreOf "hello adele" c) :=
  (Google.searchBestMatch_spec [helloSong, helloVideo] "hello adele").2.1
    (Google.mkPick helloSong) (by decide)

/-- C9: the artist list of a pick built by `searchBestMatch` is never empty:
the case ladder accepts the three artist-data shapes, and whenever it can
extract nothing the pick carries exactly the single placeholder
`["Unknown Artist"]`; otherwise the extracted list is kept as is. -/
theorem Google.extractArtists_spec :
    (∀ top : SearchResult, Google.extractArtists top ≠ []) ∧
    (∀ top : SearchResult, Google.rawArtists top = [] →
      Google.extractArtists top = ["Unknown Artist"]) ∧
    (∀ top : SearchResult, Google.rawArtists top ≠ [] →
      Google.extractArtists top = Google.rawArtists top) := by
  refine ⟨?_, ?_, ?_⟩ <;> intro top
  · by_cases h : (Google.rawArtists top).isEmpty
    · simp [Google.extractArtists, h]
    · simp only [Google.extractArtists, Bool.not_eq_true] at *
      rw [if_neg (by rw [h]; exact Bool.false_ne_true)]
      simpa [List.isEmpty_iff] using h
  · intro h
    simp [Google.extractArtists, h]
  · intro h
    simp [Google.extractArtists, List.isEmpty_iff, h]

theorem Google.extractArtists_spec_witness :
    Google.extractArtists noArtistResult = ["Unknown Artist"] ∧
    Google.extractArtists helloSong ≠ [] :=
  ⟨Google.extractArtists_spec.2.1 noArtistResult rfl,
    Google.extractArtists_spec.1 helloSong⟩

/-- C6: `removeHead` (`Google.skipFirst`) on an empty playlist returns false
and issues no delete call; on a playlist whose first item carries a (remote,
hence non-empty) playlist-item id it deletes exactly that first item by that
id and returns true. -/
theorem Google.skipFirst_spec :
    (Google.skipFirst [] = (false, [])) ∧
    (∀ (x : Google.PlaylistItem) (rest : List Google.PlaylistItem), x.id ≠ "" →
      Google.skipFirst (x :: rest) = (true, [x.id])) := by
  constructor
  · rfl
  · intro x rest hx
    have hbeq : (x.id == "") = false := beq_eq_false_iff_ne.mpr hx
    simp [Google.skipFirst, hbeq]

theorem Google.skipFirst_spec_witness :
    Google.skipFirst [⟨"item1"⟩] = (true, ["item1"]) :=
  Google.skipFirst_spec.2 ⟨"item1"⟩ [] (by decide)

theorem partPhase_done (users : List TenantUser) (partOk : String → Bool)
    (k : Nat) (chs : List String) (h : ¬ k < chs.length) :
    partPhase users partOk k chs = (chs, [], false) := by
  rw [partPhase]
  simp [h]

theorem partPhase_step_active (users : List TenantUser) (partOk : String → Bool)
    (k : Nat) (chs : List String) (h : k < chs.length)
    (hact : (users.find? (fun u => u.twitchUsername == chs.get ⟨k, h⟩)).isSome = true) :
    partPhase users partOk k chs = partPhase users partOk (k + 1) chs := by
  rw [partPhase, dif_pos h]
  simp only []
  rw [if_pos hact]

theorem partPhase_step_stale_ok (users : List TenantUser) (partOk : String → Bool)
    (k : Nat) (chs : List String) (h : k < chs.length)
    (hact : (users.find? (fun u => u.twitchUsername == chs.get ⟨k, h⟩)).isSome = false)
    (hok : partOk (chs.get ⟨k, h⟩) = true) :
    partPhase users partOk k chs =
      ((partPhase users partOk (k + 1) (chs.eraseIdx (chs.indexOf (chs.get ⟨k, h⟩)))).1,
        ChatEffect.part (chs.get ⟨k, h⟩) ::
          (partPhase users partOk (k + 1) (chs.eraseIdx (chs.indexOf (chs.get ⟨k, h⟩)))).2.1,
        (partPhase users partOk (k + 1) (chs.eraseIdx (chs.indexOf (chs.get ⟨k, h⟩)))).2.2) := by
  rw [partPhase, dif_pos h]
  simp only []
  rw [if_neg (by rw [hact]; exact Bool.false_ne_true), if_pos hok]

theorem partPhase_step_stale_fail (users : List TenantUser) (partOk : String → Bool)
    (k : Nat) (chs : List String) (h : k < chs.length)
    (hact : (users.find? (fun u => u.twitchUsername == chs.get ⟨k, h⟩)).isSome = false)
    (hok : partOk (chs.get ⟨k, h⟩) = false) :
    partPhase users partOk k chs = (chs, [ChatEffect.part (chs.get ⟨k, h⟩)], true) := by
  rw [partPhase, dif_pos h]
  simp only []
  rw [if_neg (by rw [hact]; exact Bool.false_ne_true),
    if_neg (by rw [hok]; exact Bool.false_ne_true)]

/-- C2: one tick of the reconciler with authoritative active set
`{A, B}` and joined set `{A, C}` (all remote calls succeeding) leaves the
joined set exactly `[A, B]`: channel C is parted and dropped from the
bookkeeping, channel B is registered and joined, and channel A receives no
join and no part call. -/
theorem reconcileTick_scenario (uA uB : TenantUser) (C : String)
    (hAB : uA.twitchUsername ≠ uB.twitchUsername)
    (hAC : uA.twitchUsername ≠ C) (hBC : uB.twitchUsername ≠ C) :
    reconcileTick (fun _ => true) (fun _ => true) (fun _ => true)
        [uA, uB] [uA.twitchUsername, C] =
      ([uA.twitchUsername, uB.twitchUsername],
        [.register uB.twitchUserId, .join uB.twitchUsername, .part C], false) ∧
    ChatEffect.join uA.twitchUsername ∉
      (reconcileTick (fun _ => true) (fun _ => true) (fun _ => true)
        [uA, uB] [uA.twitchUsername, C]).2.1 ∧
    ChatEffect.part uA.twitchUsername ∉
      (reconcileTick (fun _ => true) (fun _ => true) (fun _ => true)
        [uA, uB] [uA.twitchUsername, C]).2.1 := by
  have bAB : (uA.twitchUsername == uB.twitchUsername) = false :=
    beq_eq_false_iff_ne.mpr hAB
  have bCB : (C == uB.twitchUsername) = false :=
    beq_eq_false_iff_ne.mpr (fun he => hBC he.symm)
  have bAC : (uA.twitchUsername == C) = false := beq_eq_false_iff_ne.mpr hAC
  have bBC : (uB.twitchUsername == C) = false := beq_eq_false_iff_ne.mpr hBC
  have hjoin : joinPhase (fun _ => true) (fun _ => true) [uA, uB]
      [uA.twitchUsername, C] =
      ([uA.twitchUsername, C, uB.twitchUsername],
        [.register uB.twitchUserId, .join uB.twitchUsername]) := by
    simp [joinPhase, List.contains, bAB, bCB]
    exact ⟨fun he => hAB he.symm, hBC⟩
  have hlen2 : ¬ (2 : Nat) <
      ([uA.twitchUsername, uB.twitchUsername] : List String).length := by
    simp
  have hp2 : partPhase [uA, uB] (fun _ => true) 2
      [uA.twitchUsername, uB.twitchUsername] =
      ([uA.twitchUsername, uB.twitchUsername], [], false) :=
    partPhase_done _ _ _ _ hlen2
  have hlen1 : (1 : Nat) <
      ([uA.twitchUsername, C, uB.twitchUsername] : List String).length := by
    simp
  have hp1 : partPhase [uA, uB] (fun _ => true) 1
      [uA.twitchUsername, C, uB.twitchUsername] =
      ([uA.twitchUsername, uB.twitchUsername], [.part C], false) := by
    have hact : ((List.find? (fun u => u.twitchUsername ==
        ([uA.twitchUsername, C, uB.twitchUsername] : List String).get ⟨1, hlen1⟩)
        [uA, uB])).isSome = false := by
      simp [List.find?, bAC, bBC]
    have hok : (fun (_ : String) => true)
        (([uA.twitchUsername, C, uB.twitchUsername] : List String).get ⟨1, hlen1⟩) =
        true := rfl
    have step := partPhase_step_stale_ok [uA, uB] (fun _ => true) 1
      [uA.twitchUsername, C, uB.twitchUsername] hlen1 hact hok
    have hget : ([uA.twitchUsername, C, uB.twitchUsername] : List String).get
        ⟨1, hlen1⟩ = C := rfl
    rw [hget] at step
    have hidx : ([uA.twitchUsername, C, uB.twitchUsername] : List String).indexOf C =
        1 := by
      simp [List.indexOf_cons, bAC]
    rw [hidx] at step
    have herase : ([uA.twitchUsername, C, uB.twitchUsername] : List String).eraseIdx 1 =
        [uA.twitchUsername, uB.twitchUsername] := rfl
    rw [herase] at step
    rw [hp2] at step
    exact step
  have hlen0 : (0 : Nat) <
      ([uA.twitchUsername, C, uB.twitchUsername] : List String).length := by
    simp
  have hp0 : partPhase [uA, uB] (fun _ => true) 0
      [uA.twitchUsername, C, uB.twitchUsername] =
      ([uA.twitchUsername, uB.twitchUsername], [.part C], false) := by
    have hact : ((List.find? (fun u => u.twitchUsername ==
        ([uA.twitchUsername, C, uB.twitchUsername] : List String).get ⟨0, hlen0⟩)
        [uA, uB])).isSome = true := by
      simp [List.find?]
    rw [partPhase_step_active [uA, uB] (fun _ => true) 0
      [uA.twitchUsername, C, uB.twitchUsername] hlen0 hact]
    exact hp1
  have hmain : reconcileTick (fun _ => true) (fun _ => true) (fun _ => true)
      [uA, uB] [uA.twitchUsername, C] =
      ([uA.twitchUsername, uB.twitchUsername],
        [.register uB.twitchUserId, .join uB.twitchUsername, .part C], false) := by
    simp [reconcileTick, hjoin, hp0]
  refine ⟨hmain, ?_, ?_⟩ <;> rw [hmain] <;> simp [hAB, hAC]

theorem reconcileTick_scenario_witness :
    reconcileTick (fun _ => true) (fun _ => true) (fun _ => true)
        [⟨"idA", "alpha"⟩, ⟨"idB", "beta"⟩] ["alpha", "gamma"] =
      (["alpha", "beta"],
        [.register "idB", .join "beta", .part "gamma"], false) :=
  (reconcileTick_scenario ⟨"idA", "alpha"⟩ ⟨"idB", "beta"⟩ "gamma"
    (by decide) (by decide) (by decide)).1

/-- C3 counterexample: with no active tenants and joined channels
`["c", "d"]`, a failing part call for channel c aborts the tick: the claim
would have channel d still parted in the same tick, but no part call for d is
made, d stays in the joined list, and the tick ends in the aborted state —
the cleanup loop's part call is not wrapped in any per-tenant failure
boundary. -/
theorem reconcileTick_partFailure_counterexample :
    reconcileTick (fun _ => true) (fun _ => true) (fun ch => !(ch == "c"))
        [] ["c", "d"] = (["c", "d"], [ChatEffect.part "c"], true) ∧
    ChatEffect.part "d" ∉
      (reconcileTick (fun _ => true) (fun _ => true) (fun ch => !(ch == "c"))
        [] ["c", "d"]).2.1 := by
  have h : reconcileTick (fun _ => true) (fun _ => true) (fun ch => !(ch == "c"))
      [] ["c", "d"] = (["c", "d"], [ChatEffect.part "c"], true) := by
    simp [reconcileTick, joinPhase, partPhase]
  refine ⟨h, ?_⟩
  rw [h]
  simp

/-- C3 amended: failure isolation holds for the join phase only — a failed
credential registration, or a failed join, is caught and skips exactly that
tenant, with the rest of the roster processed identically; a failed part call
in the cleanup phase is not caught and aborts the remainder of the tick. -/
theorem reconcileTick_failure_isolation (regOk joinOk : String → Bool)
    (u : TenantUser) (rest : List TenantUser) (chs : List String) :
    (chs.contains u.twitchUsername = false → regOk u.twitchUserId = false →
      joinPhase regOk joinOk (u :: rest) chs =
        ((joinPhase regOk joinOk rest chs).1,
          .register u.twitchUserId :: (joinPhase regOk joinOk rest chs).2)) ∧
    (chs.contains u.twitchUsername = false → regOk u.twitchUserId = true →
      joinOk u.twitchUsername = false →
      joinPhase regOk joinOk (u :: rest) chs =
        ((joinPhase regOk joinOk rest chs).1,
          .register u.twitchUserId :: .join u.twitchUsername ::
            (joinPhase regOk joinOk rest chs).2)) ∧
    (∀ (users : List TenantUser) (partOk : String → Bool) (k : Nat)
        (cs : List String) (h : k < cs.length),
      (users.find? (fun x => x.twitchUsername == cs.get ⟨k, h⟩)).isSome = false →
      partOk (cs.get ⟨k, h⟩) = false →
      partPhase users partOk k cs = (cs, [.part (cs.get ⟨k, h⟩)], true)) := by
  refine ⟨?_, ?_, ?_⟩
  · intro hmem hreg
    have hmem2 : u.twitchUsername ∉ chs := by simpa using hmem
    simp [joinPhase, hmem2, hreg]
  · intro hmem hreg hjoin
    have hmem2 : u.twitchUsername ∉ chs := by simpa using hmem
    simp [joinPhase, hmem2, hreg, hjoin]
  · intro users partOk k cs h hact hok
    exact partPhase_step_stale_fail users partOk k cs h hact hok

theorem reconcileTick_failure_isolation_witness :
    joinPhase (fun _ => false) (fun _ => true) [⟨"id1", "chan1"⟩] [] =
      (([] : List String), [ChatEffect.register "id1"]) := by
  have h := (reconcileTick_failure_isolation (fun _ => false) (fun _ => true)
    ⟨"id1", "chan1"⟩ [] []).1 rfl rfl
  simpa using h

/-- C8: `getGoogleForUser` returns the cached session unchanged when one
exists; with no cache entry it returns none without caching when the user row
is missing or carries no truthy refresh token; a warm-up failure propagates
with nothing cached (so the next command retries from scratch); and a
successful warm-up caches the new client under the tenant id. -/
theorem getGoogleForUser_spec (cache : List (String × GoogleInst))
    (db : String → Option DbUser) (initFails : GoogleInst → Bool)
    (uid : String) :
    (∀ g, cache.lookup uid = some g →
      getGoogleForUser cache db initFails uid = (.ok (some g), cache)) ∧
    (cache.lookup uid = none →
      jsFalsyStr ((db uid).bind DbUser.googleRefreshToken) = true →
      getGoogleForUser cache db initFails uid = (.ok none, cache)) ∧
    (∀ u, cache.lookup uid = none → db uid = some u →
      jsFalsyStr u.googleRefreshToken = false →
      initFails ⟨u.googleRefreshToken.getD "", u.playlistName⟩ = true →
      getGoogleForUser cache db initFails uid = (.error (), cache)) ∧
    (∀ u, cache.lookup uid = none → db uid = some u →
      jsFalsyStr u.googleRefreshToken = false →
      initFails ⟨u.googleRefreshToken.getD "", u.playlistName⟩ = false →
      getGoogleForUser cache db initFails uid =
        (.ok (some ⟨u.googleRefreshToken.getD "", u.playlistName⟩),
          (uid, (⟨u.googleRefreshToken.getD "", u.playlistName⟩ : GoogleInst)) ::
            cache)) := by
  refine ⟨?_, ?_, ?_, ?_⟩
  · intro g hg
    simp [getGoogleForUser, hg]
  · intro hlook hfalsy
    cases hdb : db uid with
    | none => simp [getGoogleForUser, hlook, hdb]
    | some u =>
        rw [hdb] at hfalsy
        simp only [Option.some_bind] at hfalsy
        simp [getGoogleForUser, hlook, hdb, hfalsy]
  · intro u hlook hdb hfalsy hinit
    simp [getGoogleForUser, hlook, hdb, hfalsy, hinit]
  · intro u hlook hdb hfalsy hinit
    simp [getGoogleForUser, hlook, hdb, hfalsy, hinit]

theorem getGoogleForUser_spec_witness :
    getGoogleForUser [] (fun _ => some tokenUser) (fun _ => true) "u2" =
      (.error (), []) :=
  (getGoogleForUser_spec [] (fun _ => some tokenUser) (fun _ => true)
    "u2").2.2.1 tokenUser rfl rfl (by decide) rfl

/-- C7: a `!skip` line from a sender holding neither the moderator nor the
broadcaster flag produces nothing beyond the initial user-row read: no reply
of any kind, no session lookup, and no remote playlist call. -/
theorem onMessage_skip_unprivileged (env : BotEnv)
    (channel user text : String) (ui : ChatUserInfo)
    (hmod : ui.isMod = false) (hb : ui.isBroadcaster = false)
    (htext : jsToLower text = "!skip") :
    onMessage env channel user text ui =
      [.dbFindFirst (channelNameOf channel)] := by
  have h1 : jsStartsWith "!skip" "!sr " = false := by decide
  have h2 : (("!skip" : String) == "!np") = false := by decide
  cases hdb : env.dbUser with
  | none => simp [onMessage, hdb]
  | some u =>
      simp [onMessage, hdb, htext, h1, h2, skipBody, hmod, hb]

theorem onMessage_skip_unprivileged_witness :
    onMessage sampleEnv "#chan" "viewer" "!skip" ⟨false, false⟩ =
      [.dbFindFirst "chan"] :=
  onMessage_skip_unprivileged sampleEnv "#chan" "viewer" "!skip"
    ⟨false, false⟩ rfl rfl (by decide)

/-- C10: a line that is exactly the request command word with nothing after
it (no trailing space) produces nothing beyond the initial user-row read —
the request branch requires the command word followed by a space — while the
word followed only by whitespace yields exactly the empty-argument prompt. -/
theorem onMessage_sr_no_argument (env : BotEnv) (channel user : String)
    (ui : ChatUserInfo) :
    (∀ text, jsToLower text = "!sr" →
      onMessage env channel user text ui =
        [.dbFindFirst (channelNameOf channel)]) ∧
    (∀ u, env.dbUser = some u →
      onMessage env channel user "!sr " ui =
        [.dbFindFirst (channelNameOf channel),
          .say channel "Please provide a song name or YouTube link!"] ∧
      onMessage env channel user "!sr   " ui =
        [.dbFindFirst (channelNameOf channel),
          .say channel "Please provide a song name or YouTube link!"]) := by
  constructor
  · intro text htext
    have h1 : jsStartsWith "!sr" "!sr " = false := by decide
    have h2 : (("!sr" : String) == "!np") = false := by decide
    have h3 : (("!sr" : String) == "!skip") = false := by decide
    cases hdb : env.dbUser with
    | none => simp [onMessage, hdb]
    | some u => simp [onMessage, hdb, htext, h1, h2, h3]
  · intro u hdb
    constructor
    · have h1 : jsStartsWith (jsToLower "!sr ") "!sr " = true := by decide
      have h2 : jsTrim (jsSlice "!sr " 4) = "" := by decide
      simp [onMessage, hdb, h1, h2, srBody]
    · have h1 : jsStartsWith (jsToLower "!sr   ") "!sr " = true := by decide
      have h2 : jsTrim (jsSlice "!sr   " 4) = "" := by decide
      simp [onMessage, hdb, h1, h2, srBody]

theorem onMessage_sr_no_argument_witness :
    onMessage sampleEnv "#chan" "viewer" "!sr" ⟨false, false⟩ =
      [.dbFindFirst "chan"] ∧
    onMessage sampleEnv "#chan" "viewer" "!sr " ⟨false, false⟩ =
      [.dbFindFirst "chan",
        .say "#chan" "Please provide a song name or YouTube link!"] :=
  ⟨(onMessage_sr_no_argument sampleEnv "#chan" "viewer" ⟨false, false⟩).1
      "!sr" (by decide),
    ((onMessage_sr_no_argument sampleEnv "#chan" "viewer"
      ⟨false, false⟩).2 sampleUser rfl).1⟩
